import Mathlib

/-!
Verification of the privileged subprocess execution subsystem of a CLI
repository (shell escaping, retry with backoff, executable lookup,
spawn result normalization, proxy configuration, manual-order comparator).
Strings manipulated character by character are modelled as `List Char`;
JavaScript numbers used as integers are modelled as `Int` or `Nat`;
JavaScript `undefined`/`null` is modelled with `Option`.
-/

namespace BalenaHelpers

/-! ### Windows cmd.exe argument escaping (source: windowsCmdExeEscapeArg) -/

/-- The cmd.exe metacharacters matched by the regex `[()%!^<>&|]` in the source. -/
def cmdExeMetaChars : List Char := ['(', ')', '%', '!', '^', '<', '>', '&', '|']

/-- Whether a character is a cmd.exe metacharacter. -/
def isCmdExeMetaChar (c : Char) : Bool := cmdExeMetaChars.contains c

/-- Source step: `if (arg.length > 1 && arg.startsWith('"') && arg.endsWith('"')) arg = arg.slice(1, -1)`. -/
def stripOuterQuotes (arg : List Char) : List Char :=
  if 1 < arg.length ∧ arg.head? = some '"' ∧ arg.getLast? = some '"' then
    (arg.drop 1).dropLast
  else arg

/-- Source step: `arg.replace(/[()%!^<>&|]/g, '^$&')`, a global per-character replacement. -/
def caretEscape : List Char → List Char
  | [] => []
  | c :: rest => (if isCmdExeMetaChar c then ['^', c] else [c]) ++ caretEscape rest

/-- Source step: `arg.replace(/["]/g, '""')`, duplicating every double quote. -/
def duplicateQuotes : List Char → List Char
  | [] => []
  | c :: rest => (if c = '"' then ['"', '"'] else [c]) ++ duplicateQuotes rest

/-- Embedding of the source function windowsCmdExeEscapeArg: strip an outer
pair of double quotes, caret-escape the metacharacters, duplicate the
remaining double quotes, and wrap the result in double quotes. -/
def windowsCmdExeEscapeArg (arg : List Char) : List Char :=
  '"' :: (duplicateQuotes (caretEscape (stripOuterQuotes arg)) ++ ['"'])

/-! Spec-side formulation of the four escaping steps, written from the
wording of the specification, to be compared with the source embedding. -/

/-- Spec step 1: if the input has length greater than 1 and both starts and
ends with a double-quote character, strip that outer pair. -/
def specStripWrappedPair (arg : List Char) : List Char :=
  if 1 < arg.length ∧ arg.head? = some '"' ∧ arg.getLast? = some '"' then
    (arg.drop 1).dropLast
  else arg

/-- Spec step 2: prefix each character among ( ) % ! ^ < > & | with a caret. -/
def specCaretPrefix (arg : List Char) : List Char :=
  arg.flatMap (fun c => if isCmdExeMetaChar c then ['^', c] else [c])

/-- Spec step 3: duplicate every remaining double-quote character. -/
def specDuplicateQuotes (arg : List Char) : List Char :=
  arg.flatMap (fun c => if c = '"' then [c, c] else [c])

/-- Spec steps 1 to 4 composed in order: strip a wrapped pair, caret-prefix
the metacharacters, duplicate the double quotes, wrap in new double quotes. -/
def specWindowsEscape (arg : List Char) : List Char :=
  ['"'] ++ specDuplicateQuotes (specCaretPrefix (specStripWrappedPair arg)) ++ ['"']

lemma caretEscape_eq_flatMap (l : List Char) : caretEscape l = specCaretPrefix l := by
  induction l with
  | nil => simp [caretEscape, specCaretPrefix]
  | cons c rest ih => simp [caretEscape, specCaretPrefix, List.flatMap_cons] at ih ⊢; rw [ih]

lemma duplicateQuotes_eq_flatMap (l : List Char) : duplicateQuotes l = specDuplicateQuotes l := by
  induction l with
  | nil => simp [duplicateQuotes, specDuplicateQuotes]
  | cons c rest ih =>
    simp only [duplicateQuotes, specDuplicateQuotes, List.flatMap_cons] at ih ⊢
    rw [ih]
    by_cases h : c = '"' <;> simp [h]

/-! ### A cmd.exe quoting-rules parser (caret-escape and doubled-quote semantics) -/

/-- Parser for a command-line token under cmd.exe quoting rules as named by
the specification: a caret escapes the following character, a doubled double
quote inside a quoted region denotes a literal double quote, and unescaped
double quotes toggle the quoted region without being emitted. The first
argument is fuel; one unit is consumed per step, and each step consumes at
least one input character, so fuel equal to the input length is enough. -/
def cmdParseFuel : Nat → List Char → Bool → List Char → List Char
  | 0, _, _, acc => acc
  | _ + 1, [], _, acc => acc
  | fuel + 1, c :: rest, inQ, acc =>
    if c = '^' then
      match rest with
      | [] => acc
      | d :: rest2 => cmdParseFuel fuel rest2 inQ (acc ++ [d])
    else if c = '"' then
      if inQ then
        match rest with
        | [] => acc
        | '"' :: rest2 => cmdParseFuel fuel rest2 true (acc ++ ['"'])
        | _ => cmdParseFuel fuel rest false acc
      else cmdParseFuel fuel rest true acc
    else cmdParseFuel fuel rest inQ (acc ++ [c])

/-- Parse a full token starting outside a quoted region. -/
def cmdExeParse (l : List Char) : List Char := cmdParseFuel l.length l false []

lemma isCmdExeMetaChar_ne_quote {c : Char} (h : isCmdExeMetaChar c = true) : c ≠ '"' := by
  intro hq
  subst hq
  simp [isCmdExeMetaChar, cmdExeMetaChars] at h

lemma caret_isCmdExeMetaChar : isCmdExeMetaChar '^' = true := by decide

lemma cmdParseFuel_open_quote (f : Nat) (rest acc : List Char) :
    cmdParseFuel (f + 1) ('"' :: rest) false acc = cmdParseFuel f rest true acc := rfl

lemma cmdParseFuel_double_quote (f : Nat) (rest2 acc : List Char) :
    cmdParseFuel (f + 1) ('"' :: '"' :: rest2) true acc =
      cmdParseFuel f rest2 true (acc ++ ['"']) := rfl

lemma cmdParseFuel_close_quote_end (f : Nat) (acc : List Char) :
    cmdParseFuel (f + 1) ['"'] true acc = acc := rfl

lemma cmdParseFuel_caret (f : Nat) (d : Char) (rest2 acc : List Char) (inQ : Bool) :
    cmdParseFuel (f + 1) ('^' :: d :: rest2) inQ acc =
      cmdParseFuel f rest2 inQ (acc ++ [d]) := rfl

lemma cmdParseFuel_plain (f : Nat) {c : Char} (h1 : c ≠ '^') (h2 : c ≠ '"')
    (rest acc : List Char) (inQ : Bool) :
    cmdParseFuel (f + 1) (c :: rest) inQ acc = cmdParseFuel f rest inQ (acc ++ [c]) := by
  simp only [cmdParseFuel, if_neg h1, if_neg h2]

lemma caretEscape_cons_meta {c : Char} (hm : isCmdExeMetaChar c = true) (rest : List Char) :
    caretEscape (c :: rest) = '^' :: c :: caretEscape rest := by
  simp [caretEscape, hm]

lemma caretEscape_cons_plain {c : Char} (hm : isCmdExeMetaChar c = false) (rest : List Char) :
    caretEscape (c :: rest) = c :: caretEscape rest := by
  simp [caretEscape, hm]

lemma duplicateQuotes_cons_quote (rest : List Char) :
    duplicateQuotes ('"' :: rest) = '"' :: '"' :: duplicateQuotes rest := by
  simp [duplicateQuotes]

lemma duplicateQuotes_cons_ne {c : Char} (h : c ≠ '"') (rest : List Char) :
    duplicateQuotes (c :: rest) = c :: duplicateQuotes rest := by
  simp [duplicateQuotes, h]

/-- Core round-trip lemma: inside a quoted region, with enough fuel, parsing
the escaped body followed by the closing quote recovers the body appended to
the accumulator. -/
lemma cmdParseFuel_escaped_body (t : List Char) : ∀ (fuel : Nat) (acc : List Char),
    (duplicateQuotes (caretEscape t)).length + 1 ≤ fuel →
    cmdParseFuel fuel (duplicateQuotes (caretEscape t) ++ ['"']) true acc = acc ++ t := by
  induction t with
  | nil =>
    intro fuel acc hf
    simp only [caretEscape, duplicateQuotes] at hf ⊢
    match fuel, hf with
    | f + 1, _ => simp [cmdParseFuel_close_quote_end]
  | cons c t' ih =>
    intro fuel acc hf
    by_cases hq : c = '"'
    · subst hq
      have hm : isCmdExeMetaChar '"' = false := by decide
      rw [caretEscape_cons_plain hm, duplicateQuotes_cons_quote] at hf ⊢
      simp only [List.length_cons] at hf
      match fuel, hf with
      | f + 1, hf =>
        rw [List.cons_append, List.cons_append, cmdParseFuel_double_quote]
        rw [ih f (acc ++ ['"']) (by omega)]
        simp
    · by_cases hm : isCmdExeMetaChar c
      · rw [caretEscape_cons_meta hm, duplicateQuotes_cons_ne (by decide),
          duplicateQuotes_cons_ne (isCmdExeMetaChar_ne_quote hm)] at hf ⊢
        simp only [List.length_cons] at hf
        match fuel, hf with
        | f + 1, hf =>
          rw [List.cons_append, List.cons_append, cmdParseFuel_caret]
          rw [ih f (acc ++ [c]) (by omega)]
          simp
      · have hm' : isCmdExeMetaChar c = false := by
          cases h : isCmdExeMetaChar c
          · rfl
          · exact absurd h hm
        have hc1 : c ≠ '^' := by
          intro h
          subst h
          exact hm caret_isCmdExeMetaChar
        rw [caretEscape_cons_plain hm', duplicateQuotes_cons_ne hq] at hf ⊢
        simp only [List.length_cons] at hf
        match fuel, hf with
        | f + 1, hf =>
          rw [List.cons_append, cmdParseFuel_plain f hc1 hq]
          rw [ih f (acc ++ [c]) (by omega)]
          simp

/-- Parsing the full escaped token: the outer wrapping quote opens a quoted
region, the escaped body plus closing quote reproduces the stripped input. -/
lemma cmdExeParse_windowsCmdExeEscapeArg (arg : List Char) :
    cmdExeParse (windowsCmdExeEscapeArg arg) = stripOuterQuotes arg := by
  unfold cmdExeParse windowsCmdExeEscapeArg
  simp only [List.length_cons, List.length_append, List.length_singleton]
  rw [cmdParseFuel_open_quote]
  rw [cmdParseFuel_escaped_body _ _ _ (by omega)]
  simp

end BalenaHelpers

/-- C1: the Windows cmd.exe escaper produces its output by exactly the four
spec steps in order: strip an already-wrapping pair of double quotes, prefix
each metacharacter among ( ) % ! ^ < > & | with a caret, duplicate every
remaining double quote, and wrap the result in one new pair of double quotes. -/
theorem windowsCmdExeEscapeArg_eq_four_spec_steps (arg : List Char) :
    BalenaHelpers.windowsCmdExeEscapeArg arg = BalenaHelpers.specWindowsEscape arg := by
  unfold BalenaHelpers.windowsCmdExeEscapeArg BalenaHelpers.specWindowsEscape
  rw [BalenaHelpers.caretEscape_eq_flatMap, BalenaHelpers.duplicateQuotes_eq_flatMap]
  rfl

/-- C2 counterexample: the argument consisting of the three characters
double-quote, a, double-quote is already wrapped in double quotes, so the
escaper strips the outer pair, and parsing the escaped output under cmd.exe
quoting rules yields the single character a rather than the original string. -/
theorem cmdExeEscape_roundtrip_counterexample :
    BalenaHelpers.cmdExeParse
      (BalenaHelpers.windowsCmdExeEscapeArg ['"', 'a', '"']) ≠ ['"', 'a', '"'] := by
  decide

/-- C2 (amended): parsing the escaper's output under cmd.exe quoting rules
(caret-escape and doubled-quote semantics) yields the original argument with
an already-wrapping outer double-quote pair removed; in particular, for every
argument that is not already wrapped in a pair of double quotes, the round
trip yields back exactly the original argument string. -/
theorem cmdExeEscape_roundtrip_amended :
    (∀ arg : List Char,
      BalenaHelpers.cmdExeParse (BalenaHelpers.windowsCmdExeEscapeArg arg) =
        BalenaHelpers.stripOuterQuotes arg) ∧
    (∀ arg : List Char,
      ¬(1 < arg.length ∧ arg.head? = some '"' ∧ arg.getLast? = some '"') →
      BalenaHelpers.cmdExeParse (BalenaHelpers.windowsCmdExeEscapeArg arg) = arg) := by
  refine ⟨BalenaHelpers.cmdExeParse_windowsCmdExeEscapeArg, fun arg h => ?_⟩
  rw [BalenaHelpers.cmdExeParse_windowsCmdExeEscapeArg]
  unfold BalenaHelpers.stripOuterQuotes
  rw [if_neg h]

/-- C2 witness: concrete round trip for an argument with a metacharacter and
an embedded double quote that is not itself wrapped in quotes. -/
theorem cmdExeEscape_roundtrip_amended_witness :
    BalenaHelpers.cmdExeParse
      (BalenaHelpers.windowsCmdExeEscapeArg ['a', '"', '(', 'b']) = ['a', '"', '(', 'b'] :=
  cmdExeEscape_roundtrip_amended.2 ['a', '"', '(', 'b'] (by decide)

namespace BalenaHelpers

/-! ### Retry with exponential backoff (source: retry) -/

/-- Loop body of the source retry function. The remaining argument counts the
iterations of the for loop (`for count = 0; count < times - 1; count++`): when
it reaches zero, the final call is made outside any try/catch and its outcome,
success or error, is returned as is. A failed guarded call appends the waited
delay `backoffScaler ** count * startingDelayMs` to the delay trace. The
operation is modelled as a function from the attempt index to its outcome. -/
def retryGo {ε α : Type} (func : Nat → Except ε α) (startingDelayMs backoffScaler : Nat) :
    Nat → Nat → List Nat → List Nat × Except ε α
  | 0, count, delays => (delays, func count)
  | remaining + 1, count, delays =>
    match func count with
    | .ok v => (delays, .ok v)
    | .error _ =>
      retryGo func startingDelayMs backoffScaler remaining (count + 1)
        (delays ++ [backoffScaler ^ count * startingDelayMs])

/-- Embedding of the source retry function: `times` is the JavaScript number
of attempts (an integer, possibly zero or negative); the result carries the
trace of waited delays in milliseconds and the final outcome. -/
def retry {ε α : Type} (func : Nat → Except ε α) (times : Int)
    (startingDelayMs : Nat := 1000) (backoffScaler : Nat := 2) : List Nat × Except ε α :=
  retryGo func startingDelayMs backoffScaler (times - 1).toNat 0 []

lemma retryGo_delays_length {ε α : Type} (func : Nat → Except ε α) (s b : Nat) :
    ∀ (r count : Nat) (delays : List Nat),
      (retryGo func s b r count delays).1.length ≤ delays.length + r := by
  intro r
  induction r with
  | zero => intro count delays; simp [retryGo]
  | succ r ih =>
    intro count delays
    unfold retryGo
    match func count with
    | .ok v => simp
    | .error e =>
      calc (retryGo func s b r (count + 1) (delays ++ [b ^ count * s])).1.length
          ≤ (delays ++ [b ^ count * s]).length + r := ih (count + 1) _
        _ ≤ delays.length + (r + 1) := by simp; omega

lemma delay_trace_shift (b s count r : Nat) :
    b ^ count * s :: (List.range r).map (fun i => b ^ (count + 1 + i) * s) =
      (List.range (r + 1)).map (fun i => b ^ (count + i) * s) := by
  rw [List.range_succ_eq_map, List.map_cons, List.map_map]
  refine congrArg₂ List.cons ?_ ?_
  · simp
  · apply List.map_congr_left
    intro i _
    simp only [Function.comp_apply]
    have h2 : count + 1 + i = count + (i + 1) := by omega
    rw [h2]

lemma retryGo_all_fail {ε α : Type} (func : Nat → Except ε α) (s b : Nat) :
    ∀ (r count : Nat) (delays : List Nat),
      (∀ k, k < r → ∃ e, func (count + k) = .error e) →
      retryGo func s b r count delays =
        (delays ++ (List.range r).map (fun i => b ^ (count + i) * s), func (count + r)) := by
  intro r
  induction r with
  | zero => intro count delays _; simp [retryGo]
  | succ r ih =>
    intro count delays hfail
    obtain ⟨e, he⟩ := hfail 0 (Nat.succ_pos r)
    rw [Nat.add_zero] at he
    unfold retryGo
    rw [he]
    simp only
    rw [ih (count + 1) (delays ++ [b ^ count * s])
      (fun k hk => by
        obtain ⟨e', he'⟩ := hfail (k + 1) (by omega)
        refine ⟨e', ?_⟩
        have h2 : count + 1 + k = count + (k + 1) := by omega
        rw [h2]
        exact he')]
    rw [List.append_assoc, List.singleton_append, delay_trace_shift]
    have harg : count + 1 + r = count + (r + 1) := by omega
    rw [harg]

lemma retryGo_succeeds {ε α : Type} (func : Nat → Except ε α) (s b : Nat) :
    ∀ (j r count : Nat) (delays : List Nat) (v : α), j ≤ r →
      (∀ k, k < j → ∃ e, func (count + k) = .error e) →
      func (count + j) = .ok v →
      retryGo func s b r count delays =
        (delays ++ (List.range j).map (fun i => b ^ (count + i) * s), .ok v) := by
  intro j
  induction j with
  | zero =>
    intro r count delays v _ _ hok
    rw [Nat.add_zero] at hok
    match r with
    | 0 => simp [retryGo, hok]
    | r + 1 => unfold retryGo; rw [hok]; simp
  | succ j ih =>
    intro r count delays v hjr hfail hok
    match r with
    | r + 1 =>
      obtain ⟨e, he⟩ := hfail 0 (Nat.succ_pos j)
      rw [Nat.add_zero] at he
      unfold retryGo
      rw [he]
      simp only
      rw [ih r (count + 1) (delays ++ [b ^ count * s]) v (by omega)
        (fun k hk => by
          obtain ⟨e', he'⟩ := hfail (k + 1) (by omega)
          refine ⟨e', ?_⟩
          have h2 : count + 1 + k = count + (k + 1) := by omega
          rw [h2]
          exact he')
        (by
          have h2 : count + 1 + j = count + (j + 1) := by omega
          rw [h2]
          exact hok)]
      rw [List.append_assoc, List.singleton_append, delay_trace_shift]

end BalenaHelpers

/-- C3: for every operation and every times value n at least 1, retry makes at
most n sequential attempts; when the first j attempts fail and attempt j
succeeds (j below n), the delays waited are exactly backoffScaler to the power
i times startingDelayMs for the failed attempt indices i, and the successful
value is returned; when all n attempts fail, the delays are those of the first
n - 1 failures and the result is exactly the last attempt's own error. -/
theorem retry_backoff_behavior {ε α : Type} (func : Nat → Except ε α)
    (n startingDelayMs backoffScaler : Nat) (hn : 1 ≤ n) :
    (BalenaHelpers.retry func (n : Int) startingDelayMs backoffScaler).1.length + 1 ≤ n ∧
    (∀ j v, j < n → (∀ k, k < j → ∃ e, func k = Except.error e) → func j = Except.ok v →
      BalenaHelpers.retry func (n : Int) startingDelayMs backoffScaler =
        ((List.range j).map (fun i => backoffScaler ^ i * startingDelayMs), Except.ok v)) ∧
    (∀ e, (∀ k, k < n → ∃ e2, func k = Except.error e2) → func (n - 1) = Except.error e →
      BalenaHelpers.retry func (n : Int) startingDelayMs backoffScaler =
        ((List.range (n - 1)).map (fun i => backoffScaler ^ i * startingDelayMs),
          Except.error e)) := by
  have ht : (((n : Int)) - 1).toNat = n - 1 := by omega
  unfold BalenaHelpers.retry
  rw [ht]
  refine ⟨?_, ?_, ?_⟩
  · have h := BalenaHelpers.retryGo_delays_length func startingDelayMs backoffScaler (n - 1) 0 []
    simp only [List.length_nil, Nat.zero_add] at h
    omega
  · intro j v hj hfail hok
    have h := BalenaHelpers.retryGo_succeeds func startingDelayMs backoffScaler j (n - 1) 0 [] v
      (by omega) (fun k hk => by simpa using hfail k hk) (by simpa using hok)
    simpa using h
  · intro e hfail he
    have h := BalenaHelpers.retryGo_all_fail func startingDelayMs backoffScaler (n - 1) 0 []
      (fun k hk => by simpa using hfail k (by omega))
    rw [h]
    simp only [List.nil_append, Nat.zero_add]
    rw [he]

/-- Test operation for the retry witness: fails on the first two attempts and
succeeds on the third with the value 42. -/
def retryDemoOp : Nat → Except String Nat :=
  fun k => if k < 2 then Except.error "transient failure" else Except.ok 42

/-- C3 witness: with three attempts, starting delay 1000 and scaler 2, an
operation failing twice then succeeding waits 1000 then 2000 milliseconds and
returns the third attempt's value. -/
theorem retry_backoff_behavior_witness :
    BalenaHelpers.retry retryDemoOp (3 : Int) 1000 2 = ([1000, 2000], Except.ok 42) := by
  have h := (retry_backoff_behavior retryDemoOp 3 1000 2 (by norm_num)).2.1 2 42 (by norm_num)
    (fun k hk => ⟨"transient failure", by
      have h2 : k = 0 ∨ k = 1 := by omega
      rcases h2 with h2 | h2 <;> subst h2 <;> rfl⟩) (by rfl)
  exact h.trans rfl

/-- C9: for every times value at most 1, including 1, 0 and negative values,
the retry loop body never executes, so retry makes exactly one unguarded call
to the operation, returning its value or propagating its error with no delay
and no retry log event. -/
theorem retry_times_le_one {ε α : Type} (func : Nat → Except ε α) (times : Int)
    (startingDelayMs backoffScaler : Nat) (h : times ≤ 1) :
    BalenaHelpers.retry func times startingDelayMs backoffScaler = ([], func 0) := by
  unfold BalenaHelpers.retry
  have ht : (times - 1).toNat = 0 := by omega
  rw [ht]
  rfl

/-- Test operation for the degenerate retry witness: always fails. -/
def retryDemoAlwaysFail : Nat → Except String Nat :=
  fun _ => Except.error "permanent failure"

/-- C9 witness: with a negative times value, retry makes one call and
propagates its error with an empty delay trace. -/
theorem retry_times_le_one_witness :
    BalenaHelpers.retry retryDemoAlwaysFail (-2 : Int) 1000 2 =
      ([], Except.error "permanent failure") := by
  have h := retry_times_le_one retryDemoAlwaysFail (-2) 1000 2 (by norm_num)
  exact h.trans rfl

namespace BalenaHelpers

/-! ### Shell dialect detection and escaping (source: isWindowsComExeShell, shellEscape) -/

/-- Relevant environment variables consulted by the dialect detection. -/
structure ShellEnv where
  shell : Option String
  comSpec : Option String

/-- Embedding of the source function isWindowsComExeShell: the SHELL variable
is null and the ComSpec variable is non-null and ends with cmd.exe. -/
def isWindowsComExeShell (env : ShellEnv) : Bool :=
  env.shell.isNone &&
    (match env.comSpec with
     | some c => c.endsWith "cmd.exe"
     | none => false)

/-- Modelled from the spec: the POSIX escaping path of shellEscape delegates
to the external shell-escape npm package, which is not part of the repository
excerpt; per the specification it applies standard POSIX single-quote
escaping, wrapping the argument in single quotes and escaping embedded
single quotes. -/
def posixEscapeArg (arg : List Char) : List Char :=
  '\'' :: (arg.flatMap (fun c => if c = '\'' then ['\'', '\\', '\'', '\''] else [c]) ++ ['\''])

/-- Embedding of the source function shellEscape: with detectShell true the
dialect comes from isWindowsComExeShell, otherwise from whether the host
platform is win32; the chosen escaper is mapped over the arguments. -/
def shellEscape (platform : String) (env : ShellEnv) (args : List (List Char))
    (detectShell : Bool := false) : List (List Char) :=
  let isCmdExe := if detectShell then isWindowsComExeShell env else platform == "win32"
  if isCmdExe then args.map windowsCmdExeEscapeArg
  else args.map posixEscapeArg

/-- Whether the ComSpec variable is set and ends with cmd.exe. -/
def comSpecIsCmdExe (env : ShellEnv) : Bool :=
  match env.comSpec with
  | some c => c.endsWith "cmd.exe"
  | none => false

end BalenaHelpers

/-- C4 counterexample: on a Windows host with shell detection requested, when
both the SHELL and ComSpec variables are absent the code uses POSIX escaping,
not the cmd.exe escaping that the claim requires for a Windows host. -/
theorem shellEscape_detect_counterexample :
    BalenaHelpers.shellEscape "win32" ⟨none, none⟩ [['(']] true ≠
      [['(']].map BalenaHelpers.windowsCmdExeEscapeArg := by
  decide

/-- C4 (amended): when shell-dialect detection is requested, the presence of
the SHELL variable causes POSIX escaping to be used even on a Windows host;
when SHELL is absent, cmd.exe escaping is used exactly when the ComSpec
variable is set and ends with cmd.exe, independently of the host operating
system, and POSIX escaping is used otherwise. -/
theorem shellEscape_detect_amended (platform : String) (env : BalenaHelpers.ShellEnv)
    (args : List (List Char)) :
    BalenaHelpers.shellEscape platform env args true =
      (if env.shell.isSome then args.map BalenaHelpers.posixEscapeArg
       else if BalenaHelpers.comSpecIsCmdExe env then
         args.map BalenaHelpers.windowsCmdExeEscapeArg
       else args.map BalenaHelpers.posixEscapeArg) := by
  unfold BalenaHelpers.shellEscape BalenaHelpers.isWindowsComExeShell
    BalenaHelpers.comSpecIsCmdExe
  match env with
  | ⟨none, comSpec⟩ =>
    simp only [Option.isNone_none, Bool.true_and, Option.isSome_none, if_true, if_false,
      Bool.false_eq_true, reduceIte]
  | ⟨some s, comSpec⟩ =>
    simp

namespace BalenaHelpers

/-! ### Executable locator (source: which) -/

/-- Error raised by the external lookup module, identified by its code field. -/
structure LookupErr where
  code : Option String
deriving DecidableEq

/-- Outcome of the locator: a resolved path (or the empty-string sentinel), a
user-facing not-found error, or an unchanged propagated lookup error. -/
inductive WhichResult where
  | found (path : String)
  | notFound (message : String)
  | lookupFailure (err : LookupErr)
deriving DecidableEq

/-- The user-facing message of the ExpectedError raised for a missing program. -/
def notFoundMessage (program : String) : String :=
  "'" ++ program ++ "' program not found. Is it installed?"

/-- Embedding of the source function which: the result of the external lookup
is passed in as an Except value; an error with code ENOENT becomes either the
user-facing error or the empty-string sentinel depending on rejectOnMissing,
and any other error propagates unchanged. -/
def which (program : String) (lookup : Except LookupErr String)
    (rejectOnMissing : Bool := true) : WhichResult :=
  match lookup with
  | .ok p => .found p
  | .error err =>
    if err.code == some "ENOENT" then
      if rejectOnMissing then .notFound (notFoundMessage program)
      else .found ""
    else .lookupFailure err

/-! ### Process runner (source: whichSpawn) -/

/-- Formatting of a possibly-undefined number in a template literal. -/
def fmtOptInt : Option Int → String
  | some n => toString n
  | none => "undefined"

/-- Formatting of a possibly-undefined string in a template literal. -/
def fmtOptStr : Option String → String
  | some s => s
  | none => "undefined"

/-- What the spawned child reported: an error event with a message, or a
close event carrying the exit code or the termination signal. -/
inductive SpawnEvent where
  | errorEvent (message : String)
  | close (code : Option Int) (signal : Option String)

/-- JavaScript truthiness of the exit code: present and non-zero. -/
def truthyInt : Option Int → Bool
  | some n => n != 0
  | none => false

/-- JavaScript truthiness of the signal: present and non-empty. -/
def truthyStr : Option String → Bool
  | some s => s != ""
  | none => false

/-- The message of the custom error thrown by whichSpawn, mirroring the
source template: program name with code and signal on the first line, the
resolved path and argument vector on the second, and the text of the spawn
error when one occurred. -/
def whichSpawnMsg (programName program : String) (args : List String)
    (code : Option Int) (sig : Option String) (err : Option String) : String :=
  String.intercalate "\n"
    ([programName ++ " failed with exit code=" ++ fmtOptInt code ++
        " signal=" ++ fmtOptStr sig ++ ":",
      "[" ++ program ++ ", " ++ String.intercalate ", " args ++ "]"]
     ++ (match err with | some e => [e] | none => []))

/-- Outcome of whichSpawn: the normalized code and signal pair, a custom
failure error, or one of the locator failures. -/
inductive SpawnOutcome where
  | ok (code : Option Int) (signal : Option String)
  | failure (message : String)
  | notFound (message : String)
  | lookupFailure (err : LookupErr)

/-- Embedding of the source function whichSpawn: locate the program with
which (fatal mode), then spawn; a spawn error event always becomes a custom
error; a close event becomes a custom error when the policy flag is false and
the exit code or signal is truthy, and the code and signal pair otherwise. -/
def whichSpawn (programName : String) (lookup : Except LookupErr String)
    (args : List String) (event : SpawnEvent)
    (returnExitCodeOrSignal : Bool := false) : SpawnOutcome :=
  match which programName lookup true with
  | .notFound m => .notFound m
  | .lookupFailure e => .lookupFailure e
  | .found program =>
    match event with
    | .errorEvent e =>
      .failure (whichSpawnMsg programName program args none none (some e))
    | .close code sig =>
      if !returnExitCodeOrSignal && (truthyInt code || truthyStr sig) then
        .failure (whichSpawnMsg programName program args code sig none)
      else .ok code sig

end BalenaHelpers

/-- C6: a lookup failure with code ENOENT is fatal by default, raising the
user-facing program-not-found error; with rejectOnMissing false it resolves
to the empty string without raising; any other lookup failure propagates
unchanged in both modes. -/
theorem which_not_found_behavior (program : String) (err : BalenaHelpers.LookupErr) :
    (err.code = some "ENOENT" →
      BalenaHelpers.which program (Except.error err) true =
          BalenaHelpers.WhichResult.notFound (BalenaHelpers.notFoundMessage program) ∧
        BalenaHelpers.which program (Except.error err) false = BalenaHelpers.WhichResult.found "") ∧
    (err.code ≠ some "ENOENT" →
      ∀ mode : Bool,
        BalenaHelpers.which program (Except.error err) mode =
          BalenaHelpers.WhichResult.lookupFailure err) := by
  constructor
  · intro h
    constructor <;> simp [BalenaHelpers.which, h]
  · intro h mode
    simp [BalenaHelpers.which, h]

/-- C6 witness: concrete outcomes for an ENOENT failure in both modes and an
unchanged propagation for a permission error. -/
theorem which_not_found_behavior_witness :
    BalenaHelpers.which "ssh" (Except.error ⟨some "ENOENT"⟩) true =
        BalenaHelpers.WhichResult.notFound (BalenaHelpers.notFoundMessage "ssh") ∧
      BalenaHelpers.which "ssh" (Except.error ⟨some "ENOENT"⟩) false =
        BalenaHelpers.WhichResult.found "" ∧
      BalenaHelpers.which "ssh" (Except.error ⟨some "EACCES"⟩) true =
        BalenaHelpers.WhichResult.lookupFailure ⟨some "EACCES"⟩ := by
  refine ⟨((which_not_found_behavior "ssh" ⟨some "ENOENT"⟩).1 rfl).1,
    ((which_not_found_behavior "ssh" ⟨some "ENOENT"⟩).1 rfl).2,
    (which_not_found_behavior "ssh" ⟨some "EACCES"⟩).2 (by decide) true⟩

/-- C5: a close event with exit code 0 and no signal yields the pair code 0
and signal absent under either policy; a close event with only a signal
yields the signal with the code absent when the pair is requested; under the
default policy a truthy (non-zero) exit code or truthy (non-empty) signal
raises the custom error built from the program name, resolved path, argument
vector, code and signal; and a spawn error event raises the custom error
under either policy. -/
theorem whichSpawn_normalization (programName program : String) (args : List String) :
    (∀ pol : Bool,
      BalenaHelpers.whichSpawn programName (Except.ok program) args
          (BalenaHelpers.SpawnEvent.close (some 0) none) pol = BalenaHelpers.SpawnOutcome.ok (some 0) none) ∧
    (∀ sig : String,
      BalenaHelpers.whichSpawn programName (Except.ok program) args
          (BalenaHelpers.SpawnEvent.close none (some sig)) true = BalenaHelpers.SpawnOutcome.ok none (some sig)) ∧
    (∀ (code : Option Int) (sig : Option String),
      (BalenaHelpers.truthyInt code = true ∨ BalenaHelpers.truthyStr sig = true) →
      BalenaHelpers.whichSpawn programName (Except.ok program) args
          (BalenaHelpers.SpawnEvent.close code sig) false =
        BalenaHelpers.SpawnOutcome.failure
          (BalenaHelpers.whichSpawnMsg programName program args code sig none)) ∧
    (∀ (e : String) (pol : Bool),
      BalenaHelpers.whichSpawn programName (Except.ok program) args
          (BalenaHelpers.SpawnEvent.errorEvent e) pol =
        BalenaHelpers.SpawnOutcome.failure
          (BalenaHelpers.whichSpawnMsg programName program args none none (some e))) := by
  refine ⟨fun pol => ?_, fun sig => rfl, fun code sig h => ?_, fun e pol => rfl⟩
  · unfold BalenaHelpers.whichSpawn BalenaHelpers.which
    simp [BalenaHelpers.truthyInt, BalenaHelpers.truthyStr]
  · unfold BalenaHelpers.whichSpawn BalenaHelpers.which
    have hb : (BalenaHelpers.truthyInt code || BalenaHelpers.truthyStr sig) = true := by
      rcases h with h | h <;> simp [h]
    simp [hb]

/-- C5 witness: a close event with exit code 1 under the default policy
raises the custom error with the program name, resolved path, arguments,
code and signal. -/
theorem whichSpawn_normalization_witness :
    BalenaHelpers.whichSpawn "ssh" (Except.ok "/usr/bin/ssh") ["-V"]
        (BalenaHelpers.SpawnEvent.close (some 1) none) false =
      BalenaHelpers.SpawnOutcome.failure
        (BalenaHelpers.whichSpawnMsg "ssh" "/usr/bin/ssh" ["-V"] (some 1) none none) :=
  (whichSpawn_normalization "ssh" "/usr/bin/ssh" ["-V"]).2.2.1 (some 1) none
    (Or.inl (by decide))

namespace BalenaHelpers

/-! ### Proxy configuration (source: getProxyConfig) -/

/-- The externally populated global tunnel configuration object. -/
structure TunnelConfig where
  host : String
  port : Int
  proxyAuth : Option String
deriving DecidableEq

/-- The components of a parsed URL as produced by the URL constructor. -/
structure URLParts where
  hostname : String
  port : String
  username : String
  password : String
deriving DecidableEq

/-- The returned ProxyConfig object. -/
structure ProxyConfig where
  host : String
  port : String
  username : Option String
  password : Option String
  proxyAuth : Option String
deriving DecidableEq

/-- JavaScript truthiness of an optional string environment value. -/
def truthyEnv : Option String → Bool
  | some s => s != ""
  | none => false

/-- The index of the last occurrence of a character in a list, or -1,
mirroring the JavaScript lastIndexOf method. -/
def lastIndexOfAux (c : Char) : List Char → Int → Int → Int
  | [], _, best => best
  | x :: rest, pos, best =>
    lastIndexOfAux c rest (pos + 1) (if x = c then pos else best)

/-- JavaScript lastIndexOf on a string, scanning its characters. -/
def lastIndexOf (s : String) (c : Char) : Int :=
  lastIndexOfAux c s.toList 0 (-1)

/-- JavaScript substring from index 0 to i, as String.take. -/
def jsSubstringTo (s : String) (i : Nat) : String := s.take i

/-- JavaScript substring from index i to the end, as String.drop. -/
def jsSubstringFrom (s : String) (i : Nat) : String := s.drop i

/-- Embedding of the source function getProxyConfig. The global tunnel
configuration, the HTTPS_PROXY and HTTP_PROXY environment variables, and the
URL constructor of the external url module (a parameter here) are its inputs.
When the tunnel configuration is present, its proxyAuth string is split at
its last colon when that colon's index is positive; otherwise the first
truthy proxy variable is parsed, a parse failure yielding no configuration. -/
def getProxyConfig (tunnelNgConfig : Option TunnelConfig)
    (httpsProxy httpProxy : Option String)
    (parseURL : String → Option URLParts) : Option ProxyConfig :=
  match tunnelNgConfig with
  | some cfg =>
    let auth : Option String × Option String :=
      match cfg.proxyAuth with
      | some proxyAuth =>
        if proxyAuth != "" then
          let i := lastIndexOf proxyAuth ':'
          if 0 < i then
            (some (jsSubstringTo proxyAuth i.toNat),
             some (jsSubstringFrom proxyAuth (i.toNat + 1)))
          else (none, none)
        else (none, none)
      | none => (none, none)
    some { host := cfg.host, port := toString cfg.port,
           username := auth.1, password := auth.2, proxyAuth := cfg.proxyAuth }
  | none =>
    let proxyUrl : Option String :=
      if truthyEnv httpsProxy then httpsProxy else httpProxy
    match proxyUrl with
    | some u =>
      if u != "" then
        match parseURL u with
        | some url =>
          some { host := url.hostname, port := url.port,
                 username := some url.username, password := some url.password,
                 proxyAuth :=
                   if url.username != "" && url.password != "" then
                     some (url.username ++ ":" ++ url.password)
                   else none }
        | none => none
      else none
    | none => none

/-- Test fixture standing in for the URL constructor in closed statements:
recognizes two concrete proxy URLs and rejects everything else. -/
def demoParseURL : String → Option URLParts :=
  fun s =>
    if s = "http://proxy-a:8080" then some ⟨"proxy-a", "8080", "", ""⟩
    else if s = "http://proxy-b:3128" then some ⟨"proxy-b", "3128", "", ""⟩
    else none

end BalenaHelpers

/-- C7 counterexample: with no tunnel configuration, HTTPS_PROXY set to the
empty string and HTTP_PROXY set to a well-formed URL, the code derives the
configuration from HTTP_PROXY, while using HTTPS_PROXY in preference (as the
claim states for any pair of set variables) would have yielded none. -/
theorem getProxyConfig_precedence_counterexample :
    BalenaHelpers.getProxyConfig none (some "") (some "http://proxy-b:3128")
        BalenaHelpers.demoParseURL =
      some ⟨"proxy-b", "3128", some "", some "", none⟩ ∧
    BalenaHelpers.getProxyConfig none (some "") none BalenaHelpers.demoParseURL = none := by
  constructor <;> rfl

/-- C7 (amended): when the global tunnel configuration object is present the
environment variables and the URL parser are not consulted at all; when it is
absent and HTTPS_PROXY is set to a non-empty value, HTTPS_PROXY is used in
preference to HTTP_PROXY (an empty HTTPS_PROXY value falls back to
HTTP_PROXY); and a proxy URL that fails to parse yields no configuration
rather than an error. -/
theorem getProxyConfig_precedence_amended :
    (∀ (cfg : BalenaHelpers.TunnelConfig) (httpsProxy httpProxy : Option String)
        (parseURL : String → Option BalenaHelpers.URLParts),
      BalenaHelpers.getProxyConfig (some cfg) httpsProxy httpProxy parseURL =
        BalenaHelpers.getProxyConfig (some cfg) none none (fun _ => none)) ∧
    (∀ (u : String) (httpProxy : Option String)
        (parseURL : String → Option BalenaHelpers.URLParts), u ≠ "" →
      BalenaHelpers.getProxyConfig none (some u) httpProxy parseURL =
        BalenaHelpers.getProxyConfig none (some u) none parseURL) ∧
    (∀ (u : String) (parseURL : String → Option BalenaHelpers.URLParts),
      u ≠ "" → parseURL u = none →
      BalenaHelpers.getProxyConfig none (some u) none parseURL = none) := by
  refine ⟨fun cfg https http p => rfl, fun u http p h => ?_, fun u p h hp => ?_⟩
  · simp [BalenaHelpers.getProxyConfig, BalenaHelpers.truthyEnv, h]
  · simp [BalenaHelpers.getProxyConfig, BalenaHelpers.truthyEnv, h, hp]

/-- C7 witness: with both variables set to non-empty values the result equals
the one computed from HTTPS_PROXY alone, and a malformed URL yields none. -/
theorem getProxyConfig_precedence_amended_witness :
    BalenaHelpers.getProxyConfig none (some "http://proxy-a:8080")
        (some "http://proxy-b:3128") BalenaHelpers.demoParseURL =
      BalenaHelpers.getProxyConfig none (some "http://proxy-a:8080") none
        BalenaHelpers.demoParseURL ∧
    BalenaHelpers.getProxyConfig none (some "not a url") none
        BalenaHelpers.demoParseURL = none :=
  ⟨getProxyConfig_precedence_amended.2.1 "http://proxy-a:8080"
      (some "http://proxy-b:3128") BalenaHelpers.demoParseURL (by decide),
    getProxyConfig_precedence_amended.2.2 "not a url" BalenaHelpers.demoParseURL
      (by decide) (by rfl)⟩

/-- C10: with the tunnel configuration present, when its proxyAuth string is
non-empty and the index of its last colon is strictly positive, the username
is the text before that colon and the password the text after it; when the
proxyAuth string is absent, empty, has no colon, or has its last colon at
index 0, username and password are both absent while the returned proxyAuth
field still carries the raw value. -/
theorem getProxyConfig_proxyAuth_split :
    (∀ (cfg : BalenaHelpers.TunnelConfig) (pa : String) (httpsProxy httpProxy : Option String)
        (parseURL : String → Option BalenaHelpers.URLParts),
      cfg.proxyAuth = some pa → pa ≠ "" → 0 < BalenaHelpers.lastIndexOf pa ':' →
      BalenaHelpers.getProxyConfig (some cfg) httpsProxy httpProxy parseURL =
        some ⟨cfg.host, toString cfg.port,
          some (BalenaHelpers.jsSubstringTo pa (BalenaHelpers.lastIndexOf pa ':').toNat),
          some (BalenaHelpers.jsSubstringFrom pa ((BalenaHelpers.lastIndexOf pa ':').toNat + 1)),
          some pa⟩) ∧
    (∀ (cfg : BalenaHelpers.TunnelConfig) (httpsProxy httpProxy : Option String)
        (parseURL : String → Option BalenaHelpers.URLParts),
      (cfg.proxyAuth = none ∨
        ∃ pa, cfg.proxyAuth = some pa ∧ BalenaHelpers.lastIndexOf pa ':' ≤ 0) →
      BalenaHelpers.getProxyConfig (some cfg) httpsProxy httpProxy parseURL =
        some ⟨cfg.host, toString cfg.port, none, none, cfg.proxyAuth⟩) := by
  constructor
  · intro cfg pa https http p hpa hne hi
    simp [BalenaHelpers.getProxyConfig, hpa, hne, hi]
  · intro cfg https http p h
    rcases h with h | ⟨pa, hpa, hle⟩
    · simp [BalenaHelpers.getProxyConfig, h]
    · by_cases hne : pa = ""
      · subst hne
        simp [BalenaHelpers.getProxyConfig, hpa]
      · have hni : ¬ 0 < BalenaHelpers.lastIndexOf pa ':' := by omega
        simp [BalenaHelpers.getProxyConfig, hpa, hne, hni]

/-- C10 witness: a proxyAuth of user:pass splits at its last colon into the
username user and the password pass, and a proxyAuth whose only colon is at
index 0 yields no username or password while the raw string is kept. -/
theorem getProxyConfig_proxyAuth_split_witness :
    BalenaHelpers.getProxyConfig (some ⟨"proxy-h", 8080, some "user:pass"⟩) none none
        BalenaHelpers.demoParseURL =
      some ⟨"proxy-h", "8080", some "user", some "pass", some "user:pass"⟩ ∧
    BalenaHelpers.getProxyConfig (some ⟨"proxy-h", 8080, some ":pass"⟩) none none
        BalenaHelpers.demoParseURL =
      some ⟨"proxy-h", "8080", none, none, some ":pass"⟩ := by
  constructor
  · exact (getProxyConfig_proxyAuth_split.1 ⟨"proxy-h", 8080, some "user:pass"⟩ "user:pass"
      none none BalenaHelpers.demoParseURL rfl (by decide) (by decide)).trans (by decide)
  · exact (getProxyConfig_proxyAuth_split.2 ⟨"proxy-h", 8080, some ":pass"⟩
      none none BalenaHelpers.demoParseURL (Or.inr ⟨":pass", rfl, by decide⟩)).trans (by decide)

namespace BalenaHelpers

/-! ### Manual-order comparator (source: getManualSortCompareFunction) -/

/-- JavaScript findIndex with a callback receiving element, index and the
whole array: the index of the first match, or -1. -/
def jsFindIndexAux {U : Type} (arr : List U) (p : U → Nat → List U → Bool) :
    List U → Nat → Int
  | [], _ => -1
  | x :: rest, i => if p x i arr then (i : Int) else jsFindIndexAux arr p rest (i + 1)

/-- Entry point of the findIndex scan over a list. -/
def jsFindIndex {U : Type} (l : List U) (p : U → Nat → List U → Bool) : Int :=
  jsFindIndexAux l p l 0

/-- Embedding of the source function getManualSortCompareFunction: both
candidates found in the reference list compare by index difference, neither
found compares by the natural order, and a found candidate sorts before a
not-found one. -/
def getManualSortCompareFunction {T U : Type} [LinearOrder T]
    (manuallySortedArray : List U)
    (equalityFunc : T → U → Nat → List U → Bool) : T → T → Int :=
  fun a b =>
    let indexA := jsFindIndex manuallySortedArray (fun x i arr => equalityFunc a x i arr)
    let indexB := jsFindIndex manuallySortedArray (fun x i arr => equalityFunc b x i arr)
    if 0 ≤ indexA ∧ 0 ≤ indexB then indexA - indexB
    else if indexA < 0 ∧ indexB < 0 then
      if a < b then -1 else if a > b then 1 else 0
    else if indexA < 0 then 1 else -1

/-- Stable insertion of one element guided by a numeric comparator, modelling
the placement performed by the stable JavaScript Array sort. -/
def insertWithCompare {T : Type} (cmp : T → T → Int) (x : T) : List T → List T
  | [] => [x]
  | y :: ys => if cmp x y < 0 then x :: y :: ys else y :: insertWithCompare cmp x ys

/-- Stable insertion sort with a numeric comparator, modelling the stable
JavaScript Array sort applied with the returned compare function. -/
def sortWithCompare {T : Type} (cmp : T → T → Int) : List T → List T
  | [] => []
  | x :: xs => insertWithCompare cmp x (sortWithCompare cmp xs)

end BalenaHelpers

/-- C8: the returned comparator orders two candidates both found in the
reference list by their reference indices (index difference, lower first),
falls back to the natural order when neither is found, and sorts a found
candidate before a not-found one unconditionally; sorting a, b, c with
reference list b, a and exact-match equivalence yields b, a, c. -/
theorem manual_sort_compare_correct :
    (∀ (T U : Type) [LinearOrder T] (ms : List U)
        (eqf : T → U → Nat → List U → Bool) (a b : T),
      (0 ≤ BalenaHelpers.jsFindIndex ms (fun x i arr => eqf a x i arr) →
        0 ≤ BalenaHelpers.jsFindIndex ms (fun x i arr => eqf b x i arr) →
        BalenaHelpers.getManualSortCompareFunction ms eqf a b =
          BalenaHelpers.jsFindIndex ms (fun x i arr => eqf a x i arr) -
            BalenaHelpers.jsFindIndex ms (fun x i arr => eqf b x i arr)) ∧
      (BalenaHelpers.jsFindIndex ms (fun x i arr => eqf a x i arr) < 0 →
        BalenaHelpers.jsFindIndex ms (fun x i arr => eqf b x i arr) < 0 →
        BalenaHelpers.getManualSortCompareFunction ms eqf a b =
          if a < b then -1 else if a > b then 1 else 0) ∧
      (0 ≤ BalenaHelpers.jsFindIndex ms (fun x i arr => eqf a x i arr) →
        BalenaHelpers.jsFindIndex ms (fun x i arr => eqf b x i arr) < 0 →
        BalenaHelpers.getManualSortCompareFunction ms eqf a b = -1) ∧
      (BalenaHelpers.jsFindIndex ms (fun x i arr => eqf a x i arr) < 0 →
        0 ≤ BalenaHelpers.jsFindIndex ms (fun x i arr => eqf b x i arr) →
        BalenaHelpers.getManualSortCompareFunction ms eqf a b = 1)) ∧
    BalenaHelpers.sortWithCompare
        (BalenaHelpers.getManualSortCompareFunction ["b", "a"]
          (fun (a : String) x _ _ => a == x)) ["a", "b", "c"] = ["b", "a", "c"] := by
  constructor
  · intro T U instT ms eqf a b
    refine ⟨fun h1 h2 => ?_, fun h1 h2 => ?_, fun h1 h2 => ?_, fun h1 h2 => ?_⟩ <;>
      simp only [BalenaHelpers.getManualSortCompareFunction] <;>
      split_ifs with hc1 hc2 hc3 <;> first | rfl | omega
  · decide

/-- C8 witness: with reference list b, a and exact-match equivalence, the
candidate a (found at index 1) sorts before the not-found candidate c. -/
theorem manual_sort_compare_correct_witness :
    BalenaHelpers.getManualSortCompareFunction ["b", "a"]
      (fun (a : String) x _ _ => a == x) "a" "c" = -1 :=
  (manual_sort_compare_correct.1 String String ["b", "a"]
    (fun a x _ _ => a == x) "a" "c").2.2.1 (by decide) (by decide)
